import Mathlib

/-!
Verification of the novice-application moderation workflow of django-sozluk
(file `dictionary/views/admin/novices.py`): the review-queue ordering
(`novice_list`), the `NoviceLookup` dispatch guard, the accept/decline
state transitions with their side effects, and the "next applicant"
computation.  Django pieces living outside that file (the `Author` and
`Entry` models' managers, `Message.objects.compose`, `log_admin`,
`send_mail`, url reversal and the settings constants) are modelled from the
specification.  Timestamps are integers; the parameter `thr` stands for the
global `time_threshold_24h` constant.
-/

/-- The `Author` model rows used by this view: identity, contact and the
application-review fields (`is_novice`, `application_status` with values
"PN"/"AP"/"OH", nullable `application_date` and `last_activity`). -/
structure Author where
  id : Nat
  username : String
  email : String
  is_novice : Bool
  application_status : String
  application_date : Option Int
  last_activity : Option Int
deriving DecidableEq

/-- Modelled from the spec: a content item has an authorship link and a
published visibility flag (the `Entry` model is not part of the verified
file). -/
structure Entry where
  id : Nat
  author : Nat
  published : Bool
deriving DecidableEq

/-- A stored direct message (sender and recipient are `Author` ids). -/
structure Msg where
  sender : Nat
  recipient : Nat
  body : String
deriving DecidableEq

/-- An outbound email as handed to `send_mail`, including the
`fail_silently` flag it was invoked with. -/
structure Email where
  subject : String
  body : String
  sender : String
  recipients : List String
  fail_silently : Bool
deriving DecidableEq

/-- An admin `LogEntry`: acting admin, target author, description. -/
structure AuditRecord where
  actor : Nat
  target : Nat
  description : String
deriving DecidableEq

/-- A flash notification shown to the admin. -/
inductive Notice where
  | error (msg : String)
  | success (msg : String)
deriving DecidableEq

/-- One persistence / notification side effect, recorded in the order the
code performs it. -/
inductive Event where
  | save (a : Author)
  | audit (r : AuditRecord)
  | message (m : Msg)
  | email (e : Email)
  | bulkDelete (authorId : Nat)
deriving DecidableEq

/-- The kind of an `Event`, forgetting its payload. -/
inductive EventKind where
  | save
  | audit
  | message
  | email
  | bulkDelete
deriving DecidableEq

/-- Forget an event's payload. -/
def Event.kind : Event → EventKind
  | .save _ => .save
  | .audit _ => .audit
  | .message _ => .message
  | .email _ => .email
  | .bulkDelete _ => .bulkDelete

/-- The whole observable state: the database tables, the mail outbox, the
flash notifications of the current request, and the trace of side effects
in the order they were performed. -/
structure World where
  authors : List Author
  entries : List Entry
  messages : List Msg
  outbox : List Email
  auditLog : List AuditRecord
  notices : List Notice
  trace : List Event
deriving DecidableEq

/-- The responses the view can produce. -/
inductive HttpResponse where
  | redirect (url : String)
  | notFound
  | serverError (e : String)
deriving DecidableEq

/-- Modelled from the spec: the global generic-superuser identity constant
`GENERIC_SUPERUSER_ID` (dictionary/utils/settings.py, not in the verified
file). -/
def GENERIC_SUPERUSER_ID : Nat := 1

/-- Modelled from the spec: fixed accept-message template parameterized by
username (`application_accept_message` in dictionary/utils/settings.py). -/
def application_accept_message (username : String) : String :=
  "yazarlık başvurunuz kabul edildi: " ++ username

/-- Modelled from the spec: fixed decline-message template parameterized by
username (`application_decline_message` in dictionary/utils/settings.py). -/
def application_decline_message (username : String) : String :=
  "yazarlık başvurunuz reddedildi: " ++ username

/-- Modelled from the spec: the url of the top-level queue view,
`reverse("admin:novice_list")`. -/
def noviceListUrl : String := "/admin/novices/"

/-- Modelled from the spec: the url of an applicant's detail view,
`reverse("admin:novice_lookup", kwargs=...)`. -/
def noviceLookupUrl (username : String) : String :=
  "/admin/novices/lookup/" ++ username

/-- `notifications.error(request, m)`. -/
def addError (m : String) (w : World) : World :=
  { w with notices := w.notices ++ [.error m] }

/-- `notifications.success(request, m)`. -/
def addSuccess (m : String) (w : World) : World :=
  { w with notices := w.notices ++ [.success m] }

/-- `a.save()`: persist the in-memory author object, overwriting the stored
row(s) carrying its primary key. -/
def saveAuthor (a : Author) (w : World) : World :=
  { w with
    authors := w.authors.map (fun b => if b.id = a.id then a else b)
    trace := w.trace ++ [.save a] }

/-- Modelled from the spec: `log_admin` (dictionary/utils, not in the
verified file) appends one audit record keyed by actor, description and
subject entity. -/
def log_admin (description : String) (actorId targetId : Nat) (w : World) : World :=
  { w with
    auditLog := w.auditLog ++ [⟨actorId, targetId, description⟩]
    trace := w.trace ++ [.audit ⟨actorId, targetId, description⟩] }

/-- Modelled from the spec: `Message.objects.compose` (dictionary/models,
not in the verified file) stores one direct message from sender to
recipient. -/
def composeMessage (sender recipient : Nat) (body : String) (w : World) : World :=
  { w with
    messages := w.messages ++ [⟨sender, recipient, body⟩]
    trace := w.trace ++ [.message ⟨sender, recipient, body⟩] }

/-- Modelled from the spec: `django.core.mail.send_mail` — blocking, raises
on failure unless failures are suppressed.  `deliveryOk` models the mail
transport succeeding. -/
def send_mail (subject body sender : String) (recipients : List String)
    (failSilently deliveryOk : Bool) (w : World) : Except String World :=
  if deliveryOk then
    Except.ok
      { w with
        outbox := w.outbox ++ [⟨subject, body, sender, recipients, failSilently⟩]
        trace := w.trace ++ [.email ⟨subject, body, sender, recipients, failSilently⟩] }
  else if failSilently then Except.ok w
  else Except.error "SMTPException"

/-- Modelled from the spec: `Entry.objects_published.filter(author=user)
.delete()` — bulk row removal of the author's published entries, bypassing
per-item deletion side effects (it does not trigger the model's
`delete()`). -/
def bulkDeletePublished (authorId : Nat) (w : World) : World :=
  { w with
    entries := w.entries.filter (fun e => !(e.published && e.author == authorId))
    trace := w.trace ++ [.bulkDelete authorId] }

/-- `Author.objects.get(id=i)`: the unique stored author with that id, if
exactly one exists (Django raises otherwise). -/
def getAuthorById (w : World) (i : Nat) : Option Author :=
  match w.authors.filter (fun a => a.id == i) with
  | [a] => some a
  | _ => none

/-- `get_object_or_404(Author, username=u)`: the unique stored author with
that username, if exactly one exists. -/
def get_object_or_404 (w : World) (u : String) : Option Author :=
  match w.authors.filter (fun a => a.username == u) with
  | [a] => some a
  | _ => none

/-- Python `in` on a queryset of model instances compares by primary key. -/
def memById (a : Author) (xs : List Author) : Bool :=
  xs.any (fun b => b.id == a.id)

/-- The filter of `novice_list`: `last_activity__isnull=False,
is_novice=True, application_status="PN"`. -/
def eligibleNovice (a : Author) : Bool :=
  a.last_activity.isSome && a.is_novice && (a.application_status == "PN")

/-- The `activity` annotation: `Case(When(last_activity__gte=thr, then=2),
When(last_activity__lte=thr, then=1))` (0 is SQL NULL, unreachable on the
filtered rows). -/
def activity (thr : Int) (a : Author) : Int :=
  match a.last_activity with
  | some la => if thr ≤ la then 2 else if la ≤ thr then 1 else 0
  | none => 0

/-- Ascending SQL order on a nullable column (NULLs first). -/
def dateLe : Option Int → Option Int → Bool
  | none, _ => true
  | some _, none => false
  | some x, some y => x ≤ y

/-- The `order_by("-activity", "application_date")` key of `novice_list`:
activity descending, then application date ascending. -/
def queueLe (thr : Int) (a b : Author) : Prop :=
  activity thr b < activity thr a ∨
    (activity thr a = activity thr b ∧ dateLe a.application_date b.application_date = true)

instance (thr : Int) : DecidableRel (queueLe thr) := fun a b => by
  unfold queueLe
  infer_instance

/-- The Queue Builder `novice_list(limit=None)`: eligible applicants
ordered by the two-tier key, optionally truncated. -/
def novice_list (thr : Int) (db : List Author) (limit : Option Nat) : List Author :=
  let qs := List.insertionSort (queueLe thr) (db.filter eligibleNovice)
  match limit with
  | some n => qs.take n
  | none => qs

/-- Ascending `application_date` order on authors, the
`order_by("application_date")` of `get_next_username`. -/
def dateOrder (a b : Author) : Prop :=
  dateLe a.application_date b.application_date = true

instance : DecidableRel dateOrder := fun a b => by
  unfold dateOrder
  infer_instance

/-- `.order_by("application_date").first()` on the rows satisfying
`pred`. -/
def nextCandidate (pred : Author → Bool) (db : List Author) : Option Author :=
  (List.insertionSort dateOrder (db.filter pred)).head?

/-- The first filter of `get_next_username`: pending novice, strictly more
recent activity than the threshold, application date strictly after `ad`
(SQL `__gt` excludes NULL columns). -/
def nextPred1 (thr ad : Int) (a : Author) : Bool :=
  a.is_novice && (a.application_status == "PN") &&
    (match a.last_activity with
     | some la => decide (thr < la)
     | none => false) &&
    (match a.application_date with
     | some d => decide (ad < d)
     | none => false)

/-- The fallback filter of `get_next_username`: pending novice, activity
strictly below the threshold, application date strictly after `ad`. -/
def nextPred2 (thr ad : Int) (a : Author) : Bool :=
  a.is_novice && (a.application_status == "PN") &&
    (match a.last_activity with
     | some la => decide (la < thr)
     | none => false) &&
    (match a.application_date with
     | some d => decide (ad < d)
     | none => false)

/-- `NoviceLookup.get_next_username`: the 'save and continue' target.  When
`cur` has no `last_activity` or no `application_date` the Python code would
raise while building the comparison/filter; those branches return `none`
and are outside every claim about queue members. -/
def get_next_username (thr : Int) (cur : Author) (db : List Author) : Option String :=
  match cur.last_activity, cur.application_date with
  | some la, some ad =>
    let firstPass : Option Author :=
      if thr ≤ la then nextCandidate (nextPred1 thr ad) db else none
    let next_novice : Option Author :=
      match firstPass with
      | some a => some a
      | none => nextCandidate (nextPred2 thr ad) db
    next_novice.map (fun a => a.username)
  | _, _ => none

/-- Outcome of `NoviceLookup.dispatch`: possibly updated notices, the
validated `self.novice` (when review may proceed), and the early response
(when it may not). -/
structure DispatchResult where
  world : World
  novice : Option Author
  response : Option HttpResponse
deriving DecidableEq

/-- `NoviceLookup.dispatch`: resolve the requested username, then enforce
the queue-membership and top-10 window checks, redirecting with an error
otherwise. -/
def NoviceLookup.dispatch (thr : Int) (username : String) (w : World) : DispatchResult :=
  match get_object_or_404 w username with
  | none => ⟨w, none, some .notFound⟩
  | some novice =>
    let novices := novice_list thr w.authors none
    if ¬ (memById novice novices = true) then
      ⟨addError "kullanıcı çaylak onay listesinde değil." w, none,
        some (.redirect noviceListUrl)⟩
    else if ¬ (memById novice (novices.take 10) = true) then
      ⟨addError "kullanıcı çaylak onay listesinin başında değil" w, none,
        some (.redirect noviceListUrl)⟩
    else ⟨w, some novice, none⟩

/-- `NoviceLookup.accept_application`: persist status "AP" and clear the
novice flag, write the audit record, store the direct message from the
generic superuser, send the acceptance email (failures not suppressed),
surface the success notification.  Returns the reached state and the
propagated exception, if any. -/
def accept_application (adminId : Nat) (deliveryOk : Bool) (user : Author) (w : World) :
    World × Option String :=
  let user1 : Author := { user with application_status := "AP", is_novice := false }
  let w1 := saveAuthor user1 w
  let adminInfoMsg := user1.username ++ " nickli kullanıcının yazarlık talebi kabul edildi"
  let w2 := log_admin adminInfoMsg adminId user1.id w1
  match getAuthorById w2 GENERIC_SUPERUSER_ID with
  | none => (w2, some "Author.DoesNotExist")
  | some su =>
    let w3 := composeMessage su.id user1.id (application_accept_message user1.username) w2
    match send_mail "yazarlık başvurunuz kabul edildi"
        (application_accept_message user1.username)
        "Django Sözlük <correct@email.com>" [user1.email] false deliveryOk w3 with
    | .error e => (w3, some e)
    | .ok w4 => (addSuccess adminInfoMsg w4, none)

/-- `NoviceLookup.decline_application`: bulk-delete the applicant's
published entries, persist status "OH" with a cleared application date,
write the audit record, store the decline message, send the rejection
email (failures not suppressed), surface the success notification. -/
def decline_application (adminId : Nat) (deliveryOk : Bool) (user : Author) (w : World) :
    World × Option String :=
  let w0 := bulkDeletePublished user.id w
  let user1 : Author := { user with application_status := "OH", application_date := none }
  let w1 := saveAuthor user1 w0
  let adminInfoMsg := user1.username ++ " nickli kullanıcının yazarlık talebi kabul reddedildi"
  let w2 := log_admin adminInfoMsg adminId user1.id w1
  match getAuthorById w2 GENERIC_SUPERUSER_ID with
  | none => (w2, some "Author.DoesNotExist")
  | some su =>
    let w3 := composeMessage su.id user1.id (application_decline_message user1.username) w2
    match send_mail "yazarlık başvurunuz reddedildi"
        (application_decline_message user1.username)
        "Django Sözlük <correct@email.com>" [user1.email] false deliveryOk w3 with
    | .error e => (w3, some e)
    | .ok w4 => (addSuccess adminInfoMsg w4, none)

/-- `NoviceLookup.post`: reject unknown operation tokens with an error and
a redirect back to the applicant's own detail view, otherwise run the
chosen transition and redirect according to `submit_type`. -/
def NoviceLookup.post (adminId : Nat) (deliveryOk : Bool)
    (operation submitType : String) (novice : Author) (w : World) :
    World × HttpResponse :=
  if ¬ (operation = "accept" ∨ operation = "decline") then
    (addError "Geçersiz bir işlem seçtiniz." w,
      .redirect (noviceLookupUrl novice.username))
  else
    let res :=
      if operation = "accept" then accept_application adminId deliveryOk novice w
      else decline_application adminId deliveryOk novice w
    match res.2 with
    | some e => (res.1, .serverError e)
    | none =>
      if submitType = "redirect_back" then (res.1, .redirect noviceListUrl)
      else (res.1, .redirect (noviceLookupUrl submitType))

theorem dateLe_refl (x : Option Int) : dateLe x x = true := by
  cases x <;> simp [dateLe]

theorem dateLe_total (x y : Option Int) : dateLe x y = true ∨ dateLe y x = true := by
  cases x <;> cases y <;> simp [dateLe] <;> omega

theorem dateLe_trans {x y z : Option Int} (h1 : dateLe x y = true) (h2 : dateLe y z = true) :
    dateLe x z = true := by
  cases x <;> cases y <;> cases z <;> simp [dateLe] at * <;> omega

instance : IsTotal Author dateOrder :=
  ⟨fun a b => dateLe_total a.application_date b.application_date⟩

instance : IsTrans Author dateOrder :=
  ⟨fun _ _ _ h1 h2 => dateLe_trans h1 h2⟩

instance (thr : Int) : IsTotal Author (queueLe thr) := by
  constructor
  intro a b
  rcases lt_trichotomy (activity thr a) (activity thr b) with h | h | h
  · exact Or.inr (Or.inl h)
  · rcases dateLe_total a.application_date b.application_date with hd | hd
    · exact Or.inl (Or.inr ⟨h, hd⟩)
    · exact Or.inr (Or.inr ⟨h.symm, hd⟩)
  · exact Or.inl (Or.inl h)

instance (thr : Int) : IsTrans Author (queueLe thr) := by
  constructor
  intro a b c hab hbc
  rcases hab with h1 | ⟨e1, d1⟩ <;> rcases hbc with h2 | ⟨e2, d2⟩
  · exact Or.inl (lt_trans h2 h1)
  · exact Or.inl (e2 ▸ h1)
  · exact Or.inl (e1 ▸ h2)
  · exact Or.inr ⟨e1.trans e2, dateLe_trans d1 d2⟩

theorem nextCandidate_none_iff (pred : Author → Bool) (db : List Author) :
    nextCandidate pred db = none ↔ ∀ a ∈ db, pred a = false := by
  unfold nextCandidate
  rw [List.head?_eq_none_iff]
  constructor
  · intro h a ha
    have hperm := List.perm_insertionSort dateOrder (db.filter pred)
    rw [h] at hperm
    have hnil : db.filter pred = [] := hperm.symm.eq_nil
    have := List.filter_eq_nil_iff.mp hnil a ha
    simpa using this
  · intro h
    have hnil : db.filter pred = [] := by
      rw [List.filter_eq_nil_iff]
      intro a ha
      simp [h a ha]
    rw [hnil]
    rfl

theorem nextCandidate_some {pred : Author → Bool} {db : List Author} {a : Author}
    (h : nextCandidate pred db = some a) :
    a ∈ db ∧ pred a = true ∧
      ∀ b ∈ db, pred b = true → dateLe a.application_date b.application_date = true := by
  unfold nextCandidate at h
  rcases hs : List.insertionSort dateOrder (db.filter pred) with _ | ⟨x, t⟩
  · rw [hs] at h
    simp at h
  · rw [hs] at h
    simp at h
    subst h
    have hperm := List.perm_insertionSort dateOrder (db.filter pred)
    rw [hs] at hperm
    have hsorted := List.sorted_insertionSort dateOrder (db.filter pred)
    rw [hs] at hsorted
    have hmin : ∀ b ∈ t, dateOrder x b := (List.sorted_cons.mp hsorted).1
    have hafilter : x ∈ db.filter pred := hperm.mem_iff.mp (List.mem_cons_self x t)
    have ha := List.mem_filter.mp hafilter
    refine ⟨ha.1, ha.2, ?_⟩
    intro b hb hpb
    have hbfilter : b ∈ db.filter pred := List.mem_filter.mpr ⟨hb, hpb⟩
    have hbsort : b ∈ x :: t := hperm.mem_iff.mpr hbfilter
    rcases List.mem_cons.mp hbsort with hba | hbt
    · rw [hba]
      exact dateLe_refl _
    · exact hmin b hbt

theorem nextCandidate_isSome {pred : Author → Bool} {db : List Author}
    (h : ∃ a ∈ db, pred a = true) : ∃ c, nextCandidate pred db = some c := by
  rcases hc : nextCandidate pred db with _ | c
  · rcases h with ⟨a, ha, hpa⟩
    have := (nextCandidate_none_iff pred db).mp hc a ha
    rw [hpa] at this
    cases this
  · exact ⟨c, rfl⟩

theorem getAuthorById_id {w : World} {i : Nat} {a : Author}
    (h : getAuthorById w i = some a) : a.id = i := by
  unfold getAuthorById at h
  rcases hf : w.authors.filter (fun x => x.id == i) with _ | ⟨b, _ | ⟨c, t⟩⟩ <;>
    rw [hf] at h <;> simp at h
  have hb : b ∈ w.authors.filter (fun x => x.id == i) := by
    rw [hf]
    exact List.mem_cons_self b []
  have hpb := (List.mem_filter.mp hb).2
  subst h
  simpa using hpb

theorem filter_id_key (l : List Author) (f : Author → Author)
    (hf : ∀ b, (f b).id = b.id) (i : Nat) :
    (l.map f).filter (fun x => x.id == i) = (l.filter (fun x => x.id == i)).map f := by
  rw [List.filter_map]
  congr 1
  apply List.filter_congr
  intro x _
  simp [Function.comp, hf]

theorem getAuthorById_saveAuthor (a : Author) (w : World) (i : Nat) :
    getAuthorById (saveAuthor a w) i =
      (getAuthorById w i).map (fun b => if b.id = a.id then a else b) := by
  have hf : ∀ b : Author, ((fun b => if b.id = a.id then a else b) b).id = b.id := by
    intro b
    by_cases hb : b.id = a.id <;> simp [hb]
  simp only [getAuthorById, saveAuthor]
  rw [filter_id_key w.authors _ hf i]
  rcases hl : w.authors.filter (fun x => x.id == i) with _ | ⟨b, _ | ⟨c, t⟩⟩ <;>
    rw [hl] <;> simp

theorem getAuthorById_log_admin (d : String) (x y : Nat) (w : World) (i : Nat) :
    getAuthorById (log_admin d x y w) i = getAuthorById w i := rfl

theorem getAuthorById_bulkDelete (x : Nat) (w : World) (i : Nat) :
    getAuthorById (bulkDeletePublished x w) i = getAuthorById w i := rfl

theorem accept_application_authors (adminId : Nat) (dOk : Bool) (user : Author) (w : World) :
    (accept_application adminId dOk user w).1.authors =
      w.authors.map (fun b => if b.id = user.id then
        { user with application_status := "AP", is_novice := false } else b) := by
  cases dOk <;> simp only [accept_application] <;> split <;>
    simp [log_admin, saveAuthor, composeMessage, send_mail, addSuccess]

theorem accept_application_eq (adminId : Nat) (user su : Author) (w : World)
    (hsu : getAuthorById w GENERIC_SUPERUSER_ID = some su) :
    accept_application adminId true user w =
      (⟨w.authors.map (fun b => if b.id = user.id then
            { user with application_status := "AP", is_novice := false } else b),
        w.entries,
        w.messages ++ [⟨GENERIC_SUPERUSER_ID, user.id, application_accept_message user.username⟩],
        w.outbox ++ [⟨"yazarlık başvurunuz kabul edildi", application_accept_message user.username,
          "Django Sözlük <correct@email.com>", [user.email], false⟩],
        w.auditLog ++ [⟨adminId, user.id,
          user.username ++ " nickli kullanıcının yazarlık talebi kabul edildi"⟩],
        w.notices ++ [.success (user.username ++ " nickli kullanıcının yazarlık talebi kabul edildi")],
        w.trace ++ [.save { user with application_status := "AP", is_novice := false },
          .audit ⟨adminId, user.id, user.username ++ " nickli kullanıcının yazarlık talebi kabul edildi"⟩,
          .message ⟨GENERIC_SUPERUSER_ID, user.id, application_accept_message user.username⟩,
          .email ⟨"yazarlık başvurunuz kabul edildi", application_accept_message user.username,
            "Django Sözlük <correct@email.com>", [user.email], false⟩]⟩, none) := by
  have hid : su.id = GENERIC_SUPERUSER_ID := getAuthorById_id hsu
  have hfid : (if su.id = user.id then
      ({ user with application_status := "AP", is_novice := false } : Author) else su).id =
      GENERIC_SUPERUSER_ID := by
    by_cases h : su.id = user.id
    · rw [if_pos h]
      exact h ▸ hid
    · rw [if_neg h]
      exact hid
  simp only [accept_application, getAuthorById_log_admin, getAuthorById_saveAuthor, hsu,
    Option.map_some']
  simp [send_mail, composeMessage, addSuccess, log_admin, saveAuthor, hfid]

theorem accept_application_fail (adminId : Nat) (user su : Author) (w : World)
    (hsu : getAuthorById w GENERIC_SUPERUSER_ID = some su) :
    (accept_application adminId false user w).2 = some "SMTPException" := by
  simp only [accept_application, getAuthorById_log_admin, getAuthorById_saveAuthor, hsu,
    Option.map_some']
  simp [send_mail]

theorem decline_application_eq (adminId : Nat) (user su : Author) (w : World)
    (hsu : getAuthorById w GENERIC_SUPERUSER_ID = some su) :
    decline_application adminId true user w =
      (⟨w.authors.map (fun b => if b.id = user.id then
            { user with application_status := "OH", application_date := none } else b),
        w.entries.filter (fun e => !(e.published && e.author == user.id)),
        w.messages ++ [⟨GENERIC_SUPERUSER_ID, user.id, application_decline_message user.username⟩],
        w.outbox ++ [⟨"yazarlık başvurunuz reddedildi", application_decline_message user.username,
          "Django Sözlük <correct@email.com>", [user.email], false⟩],
        w.auditLog ++ [⟨adminId, user.id,
          user.username ++ " nickli kullanıcının yazarlık talebi kabul reddedildi"⟩],
        w.notices ++ [.success (user.username ++ " nickli kullanıcının yazarlık talebi kabul reddedildi")],
        w.trace ++ [.bulkDelete user.id,
          .save { user with application_status := "OH", application_date := none },
          .audit ⟨adminId, user.id, user.username ++ " nickli kullanıcının yazarlık talebi kabul reddedildi"⟩,
          .message ⟨GENERIC_SUPERUSER_ID, user.id, application_decline_message user.username⟩,
          .email ⟨"yazarlık başvurunuz reddedildi", application_decline_message user.username,
            "Django Sözlük <correct@email.com>", [user.email], false⟩]⟩, none) := by
  have hid : su.id = GENERIC_SUPERUSER_ID := getAuthorById_id hsu
  have hfid : (if su.id = user.id then
      ({ user with application_status := "OH", application_date := none } : Author) else su).id =
      GENERIC_SUPERUSER_ID := by
    by_cases h : su.id = user.id
    · rw [if_pos h]
      exact h ▸ hid
    · rw [if_neg h]
      exact hid
  simp only [decline_application, getAuthorById_log_admin, getAuthorById_bulkDelete,
    getAuthorById_saveAuthor, hsu, Option.map_some']
  simp [send_mail, composeMessage, addSuccess, log_admin, saveAuthor, bulkDeletePublished, hfid]

theorem decline_application_fail (adminId : Nat) (user su : Author) (w : World)
    (hsu : getAuthorById w GENERIC_SUPERUSER_ID = some su) :
    (decline_application adminId false user w).2 = some "SMTPException" := by
  simp only [decline_application, getAuthorById_log_admin, getAuthorById_bulkDelete,
    getAuthorById_saveAuthor, hsu, Option.map_some']
  simp [send_mail]

theorem nextPred1_eligible {thr ad : Int} {a : Author} (h : nextPred1 thr ad a = true) :
    eligibleNovice a = true := by
  rcases hla : a.last_activity with _ | la <;> rcases hdd : a.application_date with _ | d <;>
    simp [nextPred1, hla, hdd] at h <;> simp [eligibleNovice, hla] <;>
    exact ⟨h.1.1.1, h.1.1.2⟩

theorem nextPred2_eligible {thr ad : Int} {a : Author} (h : nextPred2 thr ad a = true) :
    eligibleNovice a = true := by
  rcases hla : a.last_activity with _ | la <;> rcases hdd : a.application_date with _ | d <;>
    simp [nextPred2, hla, hdd] at h <;> simp [eligibleNovice, hla] <;>
    exact ⟨h.1.1.1, h.1.1.2⟩

theorem get_next_none {thr : Int} {cur : Author} {db : List Author} {la ad : Int}
    (hla : cur.last_activity = some la) (had : cur.application_date = some ad)
    (h1 : thr ≤ la → ∀ a ∈ db, nextPred1 thr ad a = false)
    (h2 : ∀ a ∈ db, nextPred2 thr ad a = false) :
    get_next_username thr cur db = none := by
  unfold get_next_username
  rw [hla, had]
  have hc2 : nextCandidate (nextPred2 thr ad) db = none := (nextCandidate_none_iff _ _).mpr h2
  by_cases h : thr ≤ la
  · have hc1 : nextCandidate (nextPred1 thr ad) db = none := (nextCandidate_none_iff _ _).mpr (h1 h)
    simp [h, hc1, hc2]
  · simp [h, hc2]

theorem filter_eligible_of_queue_single {thr : Int} {cur : Author} {db : List Author}
    (h : novice_list thr db none = [cur]) : db.filter eligibleNovice = [cur] := by
  have hperm := List.perm_insertionSort (queueLe thr) (db.filter eligibleNovice)
  simp only [novice_list] at h
  rw [h] at hperm
  exact List.perm_singleton.mp hperm.symm

theorem get_next_single_queue {thr : Int} {cur : Author} {db : List Author} {la ad : Int}
    (hla : cur.last_activity = some la) (had : cur.application_date = some ad)
    (h : novice_list thr db none = [cur]) :
    get_next_username thr cur db = none := by
  have hf := filter_eligible_of_queue_single h
  have honly : ∀ a ∈ db, eligibleNovice a = true → a = cur := by
    intro a ha he
    have hmem : a ∈ db.filter eligibleNovice := List.mem_filter.mpr ⟨ha, he⟩
    rw [hf] at hmem
    simpa using hmem
  apply get_next_none hla had
  · intro _ a ha
    cases hp : nextPred1 thr ad a
    · rfl
    · exfalso
      have hacur : a = cur := honly a ha (nextPred1_eligible hp)
      subst hacur
      simp [nextPred1, had, lt_irrefl] at hp
  · intro a ha
    cases hp : nextPred2 thr ad a
    · rfl
    · exfalso
      have hacur : a = cur := honly a ha (nextPred2_eligible hp)
      subst hacur
      simp [nextPred2, had, lt_irrefl] at hp

/-- Example applicant A of the spec: active (activity exactly at the
threshold 100), application date 1. -/
def c1A : Author := ⟨11, "a", "a@x", true, "PN", some 1, some 100⟩

/-- Example applicant B of the spec: active, application date 2. -/
def c1B : Author := ⟨12, "b", "b@x", true, "PN", some 2, some 150⟩

/-- Example applicant C of the spec: inactive, application date 1. -/
def c1C : Author := ⟨13, "c", "c@x", true, "PN", some 1, some 50⟩

/-- The example applicant table, deliberately out of queue order. -/
def c1db : List Author := [c1B, c1C, c1A]

/-- A stored generic superuser (id `GENERIC_SUPERUSER_ID`). -/
def exSu : Author := ⟨1, "admin", "su@x", false, "AP", none, none⟩

/-- A pending novice applicant used in concrete runs. -/
def exNovice : Author := ⟨2, "nov", "n@x", true, "PN", some 5, some 150⟩

/-- A world holding the superuser, the applicant and three entries: a
published one by the applicant, a draft by the applicant, and a published
one by someone else. -/
def exW : World :=
  ⟨[exSu, exNovice], [⟨1, 2, true⟩, ⟨2, 2, false⟩, ⟨3, 3, true⟩], [], [], [], [], []⟩

/-- Current applicant for the next-username gap example: active, date 1. -/
def c10cur : Author := ⟨21, "u", "u@x", true, "PN", some 1, some 150⟩

/-- Queue member with `last_activity` exactly at the threshold, date 2. -/
def c10b : Author := ⟨22, "v", "v@x", true, "PN", some 2, some 100⟩

/-- Queue member below the threshold whose date is not after the current
applicant's. -/
def c10c : Author := ⟨23, "w", "w@x", true, "PN", some 1, some 50⟩

/-- Applicant table for the next-username gap example. -/
def c10db : List Author := [c10cur, c10b, c10c]

/-- Current applicant for the next-username success example. -/
def c5cur : Author := ⟨31, "p", "p@x", true, "PN", some 1, some 200⟩

/-- Active pending novice applying later than `c5cur`. -/
def c5next : Author := ⟨32, "q", "q@x", true, "PN", some 3, some 180⟩

/-- Applicant table for the next-username success example. -/
def c5db : List Author := [c5cur, c5next]

/-- C1: with no limit, the Queue Builder returns exactly the applicants
with the novice flag, pending status and a last activity, ordered by
activity tier descending (a last activity equal to the threshold lands in
tier 2) and application date ascending within equal tiers; on applicants
A (active, date 1), B (active, date 2), C (inactive, date 1) the queue is
[A, B, C]. -/
theorem novice_list_queue_order (thr : Int) (db : List Author) :
    (novice_list thr db none).Perm (db.filter eligibleNovice) ∧
    (novice_list thr db none).Pairwise (fun a b =>
      activity thr b ≤ activity thr a ∧
      (activity thr a = activity thr b →
        ∀ x y, a.application_date = some x → b.application_date = some y → x ≤ y)) ∧
    (∀ a : Author, a.last_activity = some thr → activity thr a = 2) ∧
    novice_list 100 c1db none = [c1A, c1B, c1C] := by
  refine ⟨?_, ?_, ?_, by decide⟩
  · simp only [novice_list]
    exact List.perm_insertionSort _ _
  · have hs := List.sorted_insertionSort (queueLe thr) (db.filter eligibleNovice)
    simp only [novice_list]
    refine List.Pairwise.imp ?_ hs
    intro a b hab
    rcases hab with hlt | ⟨heq, hd⟩
    · exact ⟨le_of_lt hlt, fun he => absurd he (ne_of_gt hlt)⟩
    · refine ⟨le_of_eq heq.symm, fun _ x y hx hy => ?_⟩
      rw [hx, hy] at hd
      simpa [dateLe] using hd
  · intro a h
    simp [activity, h]

/-- C1 witness: the concrete spec example evaluated through the
theorem. -/
theorem novice_list_queue_order_witness :
    novice_list 100 c1db none = [c1A, c1B, c1C] :=
  (novice_list_queue_order 100 c1db).2.2.2

/-- C2: the single-applicant review view opens exactly when the requested
applicant is in the unlimited queue and inside its first 10; otherwise the
request yields an error notification and a redirect to the top-level queue
view, and no applicant, content, message, outbox or audit state is
written. -/
theorem noviceLookup_dispatch_guard (thr : Int) (username : String) (w : World) (a : Author)
    (hfound : get_object_or_404 w username = some a) :
    ((NoviceLookup.dispatch thr username w).novice = some a ↔
      memById a (novice_list thr w.authors none) = true ∧
      memById a ((novice_list thr w.authors none).take 10) = true) ∧
    ((NoviceLookup.dispatch thr username w).novice = none →
      (NoviceLookup.dispatch thr username w).response = some (.redirect noviceListUrl) ∧
      (∃ m, (NoviceLookup.dispatch thr username w).world.notices = w.notices ++ [.error m]) ∧
      (NoviceLookup.dispatch thr username w).world.authors = w.authors ∧
      (NoviceLookup.dispatch thr username w).world.entries = w.entries ∧
      (NoviceLookup.dispatch thr username w).world.messages = w.messages ∧
      (NoviceLookup.dispatch thr username w).world.outbox = w.outbox ∧
      (NoviceLookup.dispatch thr username w).world.auditLog = w.auditLog ∧
      (NoviceLookup.dispatch thr username w).world.trace = w.trace) ∧
    ((NoviceLookup.dispatch thr username w).novice = some a →
      (NoviceLookup.dispatch thr username w).world = w ∧
      (NoviceLookup.dispatch thr username w).response = none) := by
  simp only [NoviceLookup.dispatch, hfound]
  by_cases h1 : memById a (novice_list thr w.authors none) = true
  · by_cases h2 : memById a ((novice_list thr w.authors none).take 10) = true
    · simp [h1, h2]
    · simp [h1, h2, addError]
  · simp [h1, addError]

/-- C2 witness: a concrete applicant present at the head of the queue. -/
theorem noviceLookup_dispatch_guard_witness :
    (NoviceLookup.dispatch 100 "nov" exW).novice = some exNovice ↔
      memById exNovice (novice_list 100 exW.authors none) = true ∧
      memById exNovice ((novice_list 100 exW.authors none).take 10) = true :=
  (noviceLookup_dispatch_guard 100 "nov" exW exNovice (by decide)).1

/-- C3: for an applicant in the reviewable window, accepting persists
status "AP" with the novice flag cleared, stores exactly one direct
message from the generic superuser, sends exactly one email to the
applicant, writes exactly one audit record attributed to the acting admin
and referencing the applicant, and deletes no content items. -/
theorem accept_transition (thr : Int) (adminId : Nat) (user su : Author) (w : World)
    (hwin : user ∈ novice_list thr w.authors (some 10))
    (hsu : getAuthorById w GENERIC_SUPERUSER_ID = some su) :
    (accept_application adminId true user w).2 = none ∧
    (accept_application adminId true user w).1.authors =
      w.authors.map (fun b => if b.id = user.id then
        { user with application_status := "AP", is_novice := false } else b) ∧
    (accept_application adminId true user w).1.messages =
      w.messages ++ [⟨GENERIC_SUPERUSER_ID, user.id, application_accept_message user.username⟩] ∧
    (accept_application adminId true user w).1.outbox =
      w.outbox ++ [⟨"yazarlık başvurunuz kabul edildi", application_accept_message user.username,
        "Django Sözlük <correct@email.com>", [user.email], false⟩] ∧
    (accept_application adminId true user w).1.auditLog =
      w.auditLog ++ [⟨adminId, user.id,
        user.username ++ " nickli kullanıcının yazarlık talebi kabul edildi"⟩] ∧
    (accept_application adminId true user w).1.entries = w.entries := by
  rw [accept_application_eq adminId user su w hsu]
  exact ⟨rfl, rfl, rfl, rfl, rfl, rfl⟩

/-- C3 witness: concrete accepted applicant, no error raised. -/
theorem accept_transition_witness :
    (accept_application 7 true exNovice exW).2 = none :=
  (accept_transition 100 7 exNovice exSu exW (by decide) (by decide)).1

/-- C4: for an applicant in the reviewable window, declining removes
exactly the published content items authored by the applicant in one bulk
deletion, persists status "OH" with an emptied application date, and
creates exactly one direct message, one email and one audit record. -/
theorem decline_transition (thr : Int) (adminId : Nat) (user su : Author) (w : World)
    (hwin : user ∈ novice_list thr w.authors (some 10))
    (hsu : getAuthorById w GENERIC_SUPERUSER_ID = some su) :
    (decline_application adminId true user w).2 = none ∧
    (decline_application adminId true user w).1.entries =
      w.entries.filter (fun e => !(e.published && e.author == user.id)) ∧
    (decline_application adminId true user w).1.authors =
      w.authors.map (fun b => if b.id = user.id then
        { user with application_status := "OH", application_date := none } else b) ∧
    (decline_application adminId true user w).1.messages =
      w.messages ++ [⟨GENERIC_SUPERUSER_ID, user.id, application_decline_message user.username⟩] ∧
    (decline_application adminId true user w).1.outbox =
      w.outbox ++ [⟨"yazarlık başvurunuz reddedildi", application_decline_message user.username,
        "Django Sözlük <correct@email.com>", [user.email], false⟩] ∧
    (decline_application adminId true user w).1.auditLog =
      w.auditLog ++ [⟨adminId, user.id,
        user.username ++ " nickli kullanıcının yazarlık talebi kabul reddedildi"⟩] ∧
    (decline_application adminId true user w).1.trace =
      w.trace ++ [.bulkDelete user.id,
        .save { user with application_status := "OH", application_date := none },
        .audit ⟨adminId, user.id,
          user.username ++ " nickli kullanıcının yazarlık talebi kabul reddedildi"⟩,
        .message ⟨GENERIC_SUPERUSER_ID, user.id, application_decline_message user.username⟩,
        .email ⟨"yazarlık başvurunuz reddedildi", application_decline_message user.username,
          "Django Sözlük <correct@email.com>", [user.email], false⟩] := by
  rw [decline_application_eq adminId user su w hsu]
  exact ⟨rfl, rfl, rfl, rfl, rfl, rfl, rfl⟩

/-- C4 witness: concrete decline removes exactly the applicant's published
entries. -/
theorem decline_transition_witness :
    (decline_application 7 true exNovice exW).1.entries =
      exW.entries.filter (fun e => !(e.published && e.author == exNovice.id)) :=
  (decline_transition 100 7 exNovice exSu exW (by decide) (by decide)).2.1

/-- C5: when the current applicant is at or above the activity threshold,
the next applicant is the earliest-dated pending novice strictly above the
threshold applying strictly later than the current applicant; when that
search is empty or the current applicant is below the threshold, the
fallback is the earliest such below-threshold applicant; when neither
search finds anyone — in particular when the queue is exactly the current
applicant — the result is none. -/
theorem get_next_username_spec (thr : Int) (cur : Author) (db : List Author) (la ad : Int)
    (hla : cur.last_activity = some la) (had : cur.application_date = some ad) :
    (thr ≤ la → (∃ a ∈ db, nextPred1 thr ad a = true) →
      ∃ c ∈ db, nextPred1 thr ad c = true ∧
        (∀ b ∈ db, nextPred1 thr ad b = true →
          dateLe c.application_date b.application_date = true) ∧
        get_next_username thr cur db = some c.username) ∧
    ((la < thr ∨ ∀ a ∈ db, nextPred1 thr ad a = false) →
      (∃ a ∈ db, nextPred2 thr ad a = true) →
      ∃ c ∈ db, nextPred2 thr ad c = true ∧
        (∀ b ∈ db, nextPred2 thr ad b = true →
          dateLe c.application_date b.application_date = true) ∧
        get_next_username thr cur db = some c.username) ∧
    ((thr ≤ la → ∀ a ∈ db, nextPred1 thr ad a = false) →
      (∀ a ∈ db, nextPred2 thr ad a = false) →
      get_next_username thr cur db = none) ∧
    (novice_list thr db none = [cur] → get_next_username thr cur db = none) := by
  refine ⟨?_, ?_, fun h1 h2 => get_next_none hla had h1 h2,
    fun h => get_next_single_queue hla had h⟩
  · intro hthr hex
    obtain ⟨c, hc⟩ := nextCandidate_isSome hex
    obtain ⟨hcdb, hcp, hcmin⟩ := nextCandidate_some hc
    refine ⟨c, hcdb, hcp, hcmin, ?_⟩
    unfold get_next_username
    rw [hla, had]
    simp [hthr, hc]
  · intro hfail hex
    obtain ⟨c, hc⟩ := nextCandidate_isSome hex
    obtain ⟨hcdb, hcp, hcmin⟩ := nextCandidate_some hc
    refine ⟨c, hcdb, hcp, hcmin, ?_⟩
    unfold get_next_username
    rw [hla, had]
    rcases hfail with hlt | hall
    · have hn : ¬ thr ≤ la := not_le.mpr hlt
      simp [hn, hc]
    · have hc1 : nextCandidate (nextPred1 thr ad) db = none :=
        (nextCandidate_none_iff _ _).mpr hall
      by_cases hthr : thr ≤ la
      · simp [hthr, hc1, hc]
      · simp [hthr, hc]

/-- C5 witness: a concrete queue where the first search succeeds. -/
theorem get_next_username_spec_witness :
    ∃ c ∈ c5db, nextPred1 100 1 c = true ∧
      (∀ b ∈ c5db, nextPred1 100 1 b = true →
        dateLe c.application_date b.application_date = true) ∧
      get_next_username 100 c5cur c5db = some c.username :=
  (get_next_username_spec 100 c5cur c5db 200 1 rfl rfl).1 (by decide)
    ⟨c5next, by decide, by decide⟩

/-- C6: any operation token other than accept or decline makes the
decision endpoint redirect back to the same applicant's detail view with
an error notification, leaving authors, entries, messages, outbox, audit
log and the side-effect trace untouched. -/
theorem post_invalid_operation (thr : Int) (adminId : Nat) (dOk : Bool)
    (op st : String) (novice : Author) (w : World)
    (hwin : novice ∈ novice_list thr w.authors (some 10))
    (h1 : op ≠ "accept") (h2 : op ≠ "decline") :
    NoviceLookup.post adminId dOk op st novice w =
      ({ w with notices := w.notices ++ [.error "Geçersiz bir işlem seçtiniz."] },
        .redirect (noviceLookupUrl novice.username)) ∧
    (NoviceLookup.post adminId dOk op st novice w).1.authors = w.authors ∧
    (NoviceLookup.post adminId dOk op st novice w).1.entries = w.entries ∧
    (NoviceLookup.post adminId dOk op st novice w).1.messages = w.messages ∧
    (NoviceLookup.post adminId dOk op st novice w).1.outbox = w.outbox ∧
    (NoviceLookup.post adminId dOk op st novice w).1.auditLog = w.auditLog ∧
    (NoviceLookup.post adminId dOk op st novice w).1.trace = w.trace := by
  have hcond : ¬ (op = "accept" ∨ op = "decline") := by
    rintro (h | h)
    · exact h1 h
    · exact h2 h
  simp only [NoviceLookup.post]
  rw [if_pos hcond]
  simp [addError]

/-- C6 witness: the invalid token "delete" on a queued applicant. -/
theorem post_invalid_operation_witness :
    NoviceLookup.post 7 true "delete" "redirect_back" exNovice exW =
      ({ exW with notices := exW.notices ++ [.error "Geçersiz bir işlem seçtiniz."] },
        .redirect (noviceLookupUrl exNovice.username)) :=
  (post_invalid_operation 100 7 true "delete" "redirect_back" exNovice exW
    (by decide) (by decide) (by decide)).1

/-- C7 counterexample: on a concrete accept run the side effects happen as
persist, audit, message, email — not in the claimed order persist,
message, email, audit. -/
theorem accept_order_counterexample :
    ¬ ((accept_application 7 true exNovice exW).1.trace.map Event.kind =
        [EventKind.save, EventKind.message, EventKind.email, EventKind.audit]) ∧
    (accept_application 7 true exNovice exW).1.trace.map Event.kind =
      [EventKind.save, EventKind.audit, EventKind.message, EventKind.email] := by
  decide

/-- C7 (amended): the accept transition performs its side effects in the
order: persist the status/flag update, write the audit record, compose and
store the direct message, send the email. -/
theorem accept_order (adminId : Nat) (user su : Author) (w : World)
    (hsu : getAuthorById w GENERIC_SUPERUSER_ID = some su) :
    (accept_application adminId true user w).1.trace =
      w.trace ++ [.save { user with application_status := "AP", is_novice := false },
        .audit ⟨adminId, user.id,
          user.username ++ " nickli kullanıcının yazarlık talebi kabul edildi"⟩,
        .message ⟨GENERIC_SUPERUSER_ID, user.id, application_accept_message user.username⟩,
        .email ⟨"yazarlık başvurunuz kabul edildi", application_accept_message user.username,
          "Django Sözlük <correct@email.com>", [user.email], false⟩] := by
  rw [accept_application_eq adminId user su w hsu]

/-- C7 witness: the amended order on a concrete accept run. -/
theorem accept_order_witness :
    (accept_application 7 true exNovice exW).1.trace =
      exW.trace ++ [.save { exNovice with application_status := "AP", is_novice := false },
        .audit ⟨7, exNovice.id,
          exNovice.username ++ " nickli kullanıcının yazarlık talebi kabul edildi"⟩,
        .message ⟨GENERIC_SUPERUSER_ID, exNovice.id, application_accept_message exNovice.username⟩,
        .email ⟨"yazarlık başvurunuz kabul edildi", application_accept_message exNovice.username,
          "Django Sözlük <correct@email.com>", [exNovice.email], false⟩] :=
  accept_order 7 exNovice exSu exW (by decide)

/-- C8: both transitions pass `fail_silently=False` to the email send, and
when the mail transport fails the transition propagates the error instead
of swallowing it. -/
theorem mail_failure_propagates (adminId : Nat) (user su : Author) (w : World)
    (hsu : getAuthorById w GENERIC_SUPERUSER_ID = some su) :
    (accept_application adminId false user w).2 = some "SMTPException" ∧
    (decline_application adminId false user w).2 = some "SMTPException" ∧
    (accept_application adminId true user w).1.outbox =
      w.outbox ++ [⟨"yazarlık başvurunuz kabul edildi", application_accept_message user.username,
        "Django Sözlük <correct@email.com>", [user.email], false⟩] ∧
    (decline_application adminId true user w).1.outbox =
      w.outbox ++ [⟨"yazarlık başvurunuz reddedildi", application_decline_message user.username,
        "Django Sözlük <correct@email.com>", [user.email], false⟩] := by
  refine ⟨accept_application_fail adminId user su w hsu,
    decline_application_fail adminId user su w hsu, ?_, ?_⟩
  · rw [accept_application_eq adminId user su w hsu]
  · rw [decline_application_eq adminId user su w hsu]

/-- C8 witness: concrete failing accept propagates the mail error. -/
theorem mail_failure_propagates_witness :
    (accept_application 7 false exNovice exW).2 = some "SMTPException" :=
  (mail_failure_propagates 7 exNovice exSu exW (by decide)).1

/-- C9: accepting touches only the applicant's own row, replacing it by
the same record with status "AP" and the novice flag cleared; username,
email, application date and last activity are untouched and every other
author row is kept. -/
theorem accept_frame (adminId : Nat) (dOk : Bool) (user : Author) (w : World) :
    (accept_application adminId dOk user w).1.authors =
      w.authors.map (fun b => if b.id = user.id then
        { user with application_status := "AP", is_novice := false } else b) ∧
    (∀ b ∈ w.authors, b.id ≠ user.id →
      b ∈ (accept_application adminId dOk user w).1.authors) ∧
    ({ user with application_status := "AP", is_novice := false } : Author).username =
      user.username ∧
    ({ user with application_status := "AP", is_novice := false } : Author).email =
      user.email ∧
    ({ user with application_status := "AP", is_novice := false } : Author).application_date =
      user.application_date ∧
    ({ user with application_status := "AP", is_novice := false } : Author).last_activity =
      user.last_activity := by
  refine ⟨accept_application_authors adminId dOk user w, ?_, rfl, rfl, rfl, rfl⟩
  intro b hb hne
  rw [accept_application_authors adminId dOk user w]
  exact List.mem_map.mpr ⟨b, hb, by simp [hne]⟩

/-- C9 witness: concrete accept rewrites only the applicant's row. -/
theorem accept_frame_witness :
    (accept_application 7 true exNovice exW).1.authors =
      exW.authors.map (fun b => if b.id = exNovice.id then
        { exNovice with application_status := "AP", is_novice := false } else b) :=
  (accept_frame 7 true exNovice exW).1

/-- C10: an applicant whose last activity equals the threshold, or a
below-threshold applicant not applying strictly later than the current
one, matches neither next-applicant search; concretely, a queue holding
such applicants after the current one still yields no next applicant. -/
theorem get_next_username_gaps :
    (∀ (thr ad : Int) (a : Author), a.last_activity = some thr →
      nextPred1 thr ad a = false ∧ nextPred2 thr ad a = false) ∧
    (∀ (thr ad la d : Int) (a : Author), a.last_activity = some la → la < thr →
      a.application_date = some d → d ≤ ad →
      nextPred1 thr ad a = false ∧ nextPred2 thr ad a = false) ∧
    novice_list 100 c10db none = [c10cur, c10b, c10c] ∧
    get_next_username 100 c10cur c10db = none := by
  refine ⟨?_, ?_, by decide, by decide⟩
  · intro thr ad a h
    constructor <;> simp [nextPred1, nextPred2, h, lt_irrefl]
  · intro thr ad la d a hla hlt hd hle
    constructor
    · have hn : ¬ thr < la := by omega
      simp [nextPred1, hla, hd, hn]
    · have hn : ¬ ad < d := by omega
      simp [nextPred2, hla, hd, hn]

/-- C10 witness: the at-threshold queue member matches neither search. -/
theorem get_next_username_gaps_witness :
    nextPred1 100 0 c10b = false ∧ nextPred2 100 0 c10b = false :=
  get_next_username_gaps.1 100 0 c10b rfl
